import Mathlib

/-!
A verification development for the bareClient HTTP client library.

The definitions below are a shallow embedding, in Lean, of the parts of the
source that the verified properties speak about:

* header enrichment (`src/bareclient/acgi/requester.py`, `_enrich_headers`),
* the request body writer (`_make_body_writer`) and the request side of the
  requester conversation (`RequesterInstance._process_request`),
* the HTTP/1.1 engine receive path (`src/bareclient/acgi/h11_protocol.py`),
* the HTTP/2 engine receive path and flow controlled send path
  (`src/bareclient/acgi/h2_protocol.py`),
* the CONNECT tunnel procedure (`Requester.establish_tunnel`),
* the basic authorization middleware
  (`src/bareclient/middlewares/basic_authorization.py`),
* the session cookie jar (`src/bareclient/middlewares/session.py`).

Python byte strings are modelled as Lean `String` values (header names and
values, body chunks), except for the HTTP/2 outbound body where byte lists
(`List Nat`) are used so that byte level slicing is explicit.  Python dicts
are modelled as insertion ordered association lists with the replacement
semantics of CPython dicts.  Times are integers.
-/

namespace BareClient

/-- A header entry: a (name, value) pair of byte strings. -/
abbrev Header := String × String

/-- An ordered header list. -/
abbrev Headers := List Header

/-- The ACGI messages exchanged between the requester and the engines.
The source carries these as dicts tagged by a string `type` field
(`http.request`, `http.request.body`, `http.disconnect`,
`http.response.connection`, `http.response`, `http.response.body`);
here they are a tagged sum. -/
inductive HttpMsg where
  | request (host scheme path method : String) (headers : Headers)
      (body : Option String) (more_body : Bool)
  | requestBody (body : String) (more_body : Bool) (stream_id : Option Nat)
  | disconnect (stream_id : Option Nat)
  | responseConnection (http_version : String) (stream_id : Option Nat)
  | response (status_code : Int) (headers : Headers) (more_body : Bool)
      (stream_id : Option Nat) (http_version : String)
  | responseBody (body : String) (more_body : Bool) (stream_id : Option Nat)
  deriving Repr, DecidableEq

/-- Whether the second list is an initial segment of the first. -/
def listStarts {α : Type} [DecidableEq α] : List α → List α → Bool
  | _, [] => true
  | [], _ :: _ => false
  | a :: as, b :: bs => a = b && listStarts as bs

/-- Python `s.startswith(pre)` on byte strings. -/
def bytes_startswith (s pre : String) : Bool :=
  listStarts s.toList pre.toList

/-- Python `s.endswith(suf)` on byte strings. -/
def bytes_endswith (s suf : String) : Bool :=
  listStarts s.toList.reverse suf.toList.reverse

/-- Model of `bareutils.header.find(name, headers)`: the value of the first
header with the given name, or `none` (the Python default) when absent. -/
def header_find (name : String) (headers : Headers) : Option String :=
  match headers with
  | [] => none
  | (n, v) :: rest => if n = name then some v else header_find name rest

/-- Python truthiness of the result of `header.find`: `None` and the empty
byte string are falsy, any other value is truthy.  The source tests
`if not header.find(...)`, so a header that is present with an empty value
counts as absent there. -/
def pyTruthy (v : Option String) : Bool :=
  match v with
  | none => false
  | some s => s ≠ ""

/-- The `USER_AGENT` constant of `src/bareclient/constants.py`.  Its real
value interpolates the package version and platform fields; no verified
property depends on the exact characters, only on the header name it is
stored under, so a fixed stand-in string is used. -/
def USER_AGENT : String := "bareClient/x.y.z (sysname; release; machine)"

/-- Transcription of `_enrich_headers` from `src/bareclient/acgi/requester.py`
(lines 38-52; the copy in `src/bareclient/requester.py` lines 29-44 is the
same logic with the fields passed separately).  `hasBody` models
`request.body is not None`: an async iterable object is always truthy. -/
def _enrich_headers (host : String) (headers0 : Headers) (hasBody : Bool) : Headers :=
  let headers := headers0
  let headers :=
    if pyTruthy (header_find "user-agent" headers) then headers
    else headers ++ [("user-agent", USER_AGENT)]
  let headers :=
    if pyTruthy (header_find "host" headers) then headers
    else headers ++ [("host", host)]
  let headers :=
    if hasBody &&
        !(pyTruthy (header_find "content-length" headers) ||
          pyTruthy (header_find "transfer-encoding" headers))
    then headers ++ [("transfer-encoding", "chunked")]
    else headers
  headers

/-- Whether some header with the given name is present, regardless of its
value.  This is the presence notion used by the claims about header
enrichment and middleware. -/
def headerPresent (name : String) (headers : Headers) : Bool :=
  headers.any (fun h => h.1 = name)

/-- Count the headers with a given name. -/
def countName (name : String) (headers : Headers) : Nat :=
  headers.countP (fun h => h.1 = name)

/-! ### Basic authorization middleware -/

/-- The standard base64 alphabet, as used by `base64.b64encode`. -/
def base64Alphabet : List Char :=
  "ABCDEFGHIJKLMNOPQRSTUVWXYZabcdefghijklmnopqrstuvwxyz0123456789+/".toList

/-- One character of base64 output for a 6 bit group. -/
def b64char (n : Nat) : Char :=
  base64Alphabet.getD n 'A'

/-- Base64 encoding of a byte list, three bytes to four characters with
trailing padding, as `base64.b64encode` produces. -/
def b64encodeBytes : List Nat → List Char
  | [] => []
  | [a] => [b64char (a / 4), b64char (a % 4 * 16), '=', '=']
  | [a, b] => [b64char (a / 4), b64char (a % 4 * 16 + b / 16), b64char (b % 16 * 4), '=']
  | a :: b :: c :: rest =>
      b64char (a / 4) :: b64char (a % 4 * 16 + b / 16) ::
      b64char (b % 16 * 4 + c / 64) :: b64char (c % 64) :: b64encodeBytes rest

/-- Model of `base64.b64encode` on an ASCII string. -/
def b64encode (s : String) : String :=
  String.mk (b64encodeBytes (s.toList.map Char.toNat))

/-- The `authorization` header list built by `create_basic_auth_middleware`
in `src/bareclient/middlewares/basic_authorization.py` (lines 32-35). -/
def basic_auth_headers (username password : String) : Headers :=
  [("authorization", "Basic " ++ b64encode (username ++ ":" ++ password))]

/-- Transcription of the header transformation performed by
`basic_auth_middleware` (line 46 of
`src/bareclient/middlewares/basic_authorization.py`):
`headers = headers + authorization_headers`, with no presence check. -/
def basic_auth_middleware (username password : String) (headers : Headers) : Headers :=
  headers ++ basic_auth_headers username password

/-! ### The request body writer and the request side of the conversation -/

/-- The loop body of `_make_body_writer` (lines 70-78 of
`src/bareclient/acgi/requester.py`) once a first chunk has been read:
look one chunk ahead, yield `(chunk, more_body)` with `more_body` false
exactly on the last chunk. -/
def bodyWriterLoop (first : String) : List String → List (Option String × Bool)
  | [] => [(some first, false)]
  | c :: cs => (some first, true) :: bodyWriterLoop c cs

/-- Transcription of `_make_body_writer` from
`src/bareclient/acgi/requester.py` (lines 55-78).  The async iterable of
chunks is modelled as the list of chunks it yields; `none` content models
`content is None`. -/
def _make_body_writer (content : Option (List String)) : List (Option String × Bool) :=
  match content with
  | none => [(none, false)]
  | some [] => [(none, false)]
  | some (c :: cs) => bodyWriterLoop c cs

/-- The messages sent by `RequesterInstance._process_request`
(`src/bareclient/acgi/requester.py` lines 115-149): the first
`(body, more_body)` pair of the body writer travels inside the
`http.request` message, every later pair inside an `http.request.body`
message carrying the stream id learned from the
`http.response.connection` message (`body or b''` turns `None` into the
empty byte string). -/
def _process_request_msgs (host scheme path method : String) (headers : Headers)
    (content : Option (List String)) (stream_id : Option Nat) : List HttpMsg :=
  match _make_body_writer content with
  | [] => []
  | (b0, mb0) :: rest =>
      HttpMsg.request host scheme path method (_enrich_headers host headers content.isSome) b0 mb0 ::
      rest.map (fun p => HttpMsg.requestBody (p.1.getD "") p.2 stream_id)

/-! ### The HTTP/1.1 engine receive path -/

/-- The h11 events the HTTP/1.1 engine consumes from the wire parser
(`h11.Response`, `h11.Data`, `h11.EndOfMessage`, `h11.ConnectionClosed`).
`NEED_DATA` is an artifact of buffering and is absorbed into the event
stream. -/
inductive H11Event where
  | response (status : Int) (headers : Headers)
  | data (body : String)
  | endOfMessage
  | connectionClosed
  deriving Repr, DecidableEq

/-- Value of an ASCII digit character. -/
def digitVal (c : Char) : Option Nat :=
  if 48 ≤ c.toNat && c.toNat ≤ 57 then some (c.toNat - 48) else none

/-- Parse a digit run. -/
def pyDigitsAux : List Char → Nat → Option Nat
  | [], acc => some acc
  | c :: rest, acc =>
      match digitVal c with
      | some d => pyDigitsAux rest (acc * 10 + d)
      | none => none

/-- Parse a nonempty digit run. -/
def pyDigits : List Char → Option Nat
  | [] => none
  | l => pyDigitsAux l 0

/-- Model of Python `int(value)` on a byte string (ValueError on garbage is
represented by `none`). -/
def pyInt? (s : String) : Option Int :=
  match s.toList with
  | '-' :: rest => (pyDigits rest).map (fun n => -(n : Int))
  | l => (pyDigits l).map (fun n => (n : Int))

/-- The header scan of `H11Protocol._receive_response`
(`src/bareclient/acgi/h11_protocol.py` lines 142-147): `more_body` becomes
true on a `content-length` header whose integer value is nonzero, or on a
`transfer-encoding: chunked` header.  `int(value)` on a malformed
`content-length` raises, modelled by the error branch. -/
def h11_more_body_scan : Headers → Bool → Except String Bool
  | [], mb => Except.ok mb
  | (n, v) :: rest, mb =>
      if n = "content-length" then
        match pyInt? v with
        | some k => h11_more_body_scan rest (if k ≠ 0 then true else mb)
        | none => Except.error "ValueError"
      else if n = "transfer-encoding" && v = "chunked" then
        h11_more_body_scan rest true
      else
        h11_more_body_scan rest mb

/-- The `more_body` flag the HTTP/1.1 engine computes for a parsed response
head. -/
def h11_compute_more_body (headers : Headers) : Except String Bool :=
  h11_more_body_scan headers false

/-- The body phase of the HTTP/1.1 receive path: each call of
`_receive_body_event` (`src/bareclient/acgi/h11_protocol.py` lines 177-206)
turns one wire event into one upward message, and the caller keeps receiving
until a message with `more_body == false` (or a disconnect) arrives.  An
exhausted wire with no terminal event is a connection failure. -/
def h11_body_msgs : List H11Event → Except String (List HttpMsg)
  | [] => Except.error "ConnectionError"
  | H11Event.data d :: rest =>
      (h11_body_msgs rest).map (fun ms => HttpMsg.responseBody d true none :: ms)
  | H11Event.endOfMessage :: _ => Except.ok [HttpMsg.responseBody "" false none]
  | H11Event.connectionClosed :: _ => Except.ok [HttpMsg.disconnect none]
  | H11Event.response _ _ :: _ => Except.error "ValueError"

/-- The full sequence of messages successive `receive()` calls deliver for
one HTTP/1.1 exchange, given the wire events: the `http.response.connection`
message set during `_send_request` (lines 96-101), then the `http.response`
message built by `_receive_response` (lines 129-160), then, when
`more_body` is true, the body messages.  A first wire event other than a
response head raises in `_receive_response` (lines 135-140). -/
def h11_drive : List H11Event → Except String (List HttpMsg)
  | [] => Except.error "ConnectionError"
  | H11Event.response st hs :: rest =>
      match h11_compute_more_body hs with
      | Except.error e => Except.error e
      | Except.ok mb =>
          if mb then
            (h11_body_msgs rest).map (fun bodies =>
              HttpMsg.responseConnection "h11" none ::
              HttpMsg.response st hs true none "1.1" :: bodies)
          else
            Except.ok [HttpMsg.responseConnection "h11" none,
                       HttpMsg.response st hs false none "1.1"]
  | H11Event.endOfMessage :: _ => Except.error "ConnectionError"
  | H11Event.connectionClosed :: _ => Except.error "ConnectionError"
  | H11Event.data _ :: _ => Except.error "ValueError"

/-! ### The requester response side -/

/-- The scoped response handed to the caller
(`src/bareclient/response.py`): the body is absent when the engine reported
no more body, otherwise it is the stream of body chunks, materialised here
as the list the iterator yields. -/
structure ResponseRec where
  url : String
  status_code : Int
  headers : Headers
  body : Option (List String)
  deriving Repr, DecidableEq

/-- Transcription of `RequesterInstance._body_reader`
(`src/bareclient/acgi/requester.py` lines 173-186): pull messages, yield
`http.response.body` payloads until `more_body` goes false; a disconnect
raises, any other variant raises. -/
def requester_body_reader : List HttpMsg → Except String (List String)
  | [] => Except.error "ConnectionError"
  | HttpMsg.disconnect _ :: _ => Except.error "IOError server disconnected"
  | HttpMsg.responseBody b mb _ :: rest =>
      if mb then (requester_body_reader rest).map (fun cs => b :: cs)
      else Except.ok [b]
  | _ :: _ => Except.error "ValueError invalid message type"

/-- Transcription of `RequesterInstance._process_response`
(`src/bareclient/acgi/requester.py` lines 151-171) applied to the stream of
messages `receive()` will deliver: a disconnect raises, a response head
yields a `Response` whose body is absent exactly when `more_body` is
false, anything else raises. -/
def _process_response (url : String) : List HttpMsg → Except String ResponseRec
  | [] => Except.error "ConnectionError"
  | HttpMsg.disconnect _ :: _ => Except.error "IOError server disconnected"
  | HttpMsg.response st hs mb _ _ :: rest =>
      if mb then
        (requester_body_reader rest).map (fun cs => ResponseRec.mk url st hs (some cs))
      else
        Except.ok (ResponseRec.mk url st hs none)
  | _ :: _ => Except.error "ValueError invalid type"

/-! ### The HTTP/2 engine -/

/-- The h2 library events the HTTP/2 engine consumes
(`h2.events.ResponseReceived`, `DataReceived`, `StreamEnded`,
`StreamReset`, `WindowUpdated`; everything else is collapsed into
`other`).  `streamEnded` on a head or data event models
`event.stream_ended is not None`. -/
inductive H2Event where
  | responseReceived (headers : Headers) (streamEnded : Bool) (streamId : Nat)
  | dataReceived (body : String) (flowControlledLength : Nat)
      (streamEnded : Bool) (streamId : Nat)
  | streamEnded (streamId : Nat)
  | streamReset (streamId : Nat)
  | windowUpdated (streamId : Nat) (delta : Nat)
  | other
  deriving Repr, DecidableEq

/-- The header scan of `H2Protocol._receive_response`
(`src/bareclient/acgi/h2_protocol.py` lines 229-235): `:status` becomes the
status code (`int(value)`, default 200), other pseudo headers are dropped,
plain headers are kept in order. -/
def h2_build_response : Headers → Int × Headers → Except String (Int × Headers)
  | [], acc => Except.ok acc
  | (n, v) :: rest, (st, hs) =>
      if n = ":status" then
        match pyInt? v with
        | some k => h2_build_response rest (k, hs)
        | none => Except.error "ValueError"
      else if bytes_startswith n ":" then h2_build_response rest (st, hs)
      else h2_build_response rest (st, hs ++ [(n, v)])

/-- The body phase of `H2Protocol._receive_response`
(`src/bareclient/acgi/h2_protocol.py` lines 251-271): every `DataReceived`
event has its flow controlled length acknowledged back to the peer and is
delivered as an `http.response.body` message with
`more_body = (stream_ended is None)`; a `StreamEnded` or `StreamReset`
delivers `http.disconnect` and ends the loop; other events are skipped.
The accumulator sums the acknowledged flow controlled lengths; the result
pairs the delivered messages with the final sum. -/
def h2_body_loop : List H2Event → Nat → Except String (List HttpMsg × Nat)
  | [], _ => Except.error "ConnectionError"
  | H2Event.dataReceived d fl ended sid :: rest, acked =>
      (h2_body_loop rest (acked + fl)).map
        (fun r => (HttpMsg.responseBody d (!ended) (some sid) :: r.1, r.2))
  | H2Event.streamEnded sid :: _, acked =>
      Except.ok ([HttpMsg.disconnect (some sid)], acked)
  | H2Event.streamReset sid :: _, acked =>
      Except.ok ([HttpMsg.disconnect (some sid)], acked)
  | _ :: rest, acked => h2_body_loop rest acked

/-- The full sequence of messages one HTTP/2 stream delivers upward through
the response queue, given the wire events: the `http.response.connection`
message queued by `_send_request` (lines 96-101), then the
`http.response` head built on the first `ResponseReceived` event with
`more_body = (stream_ended is None)` (lines 223-249), then the body phase.
Events before the response head are skipped by the wait loop (line 226).
The second component is the total of acknowledged flow controlled
lengths. -/
def h2_drive : List H2Event → Except String (List HttpMsg × Nat)
  | [] => Except.error "ConnectionError"
  | H2Event.responseReceived rhs ended sid :: rest =>
      match h2_build_response rhs (200, []) with
      | Except.error e => Except.error e
      | Except.ok (st, hs) =>
          (h2_body_loop rest 0).map (fun r =>
            (HttpMsg.responseConnection "h2" (some sid) ::
             HttpMsg.response st hs (!ended) (some sid) "2" :: r.1, r.2))
  | _ :: rest => h2_drive rest

/-- Sum of the flow controlled lengths of the data events delivered before
the first stream terminator; this is what the engine acknowledges back. -/
def sumFlowControlled : List H2Event → Nat
  | [] => 0
  | H2Event.dataReceived _ fl _ _ :: rest => fl + sumFlowControlled rest
  | H2Event.streamEnded _ :: _ => 0
  | H2Event.streamReset _ :: _ => 0
  | _ :: rest => sumFlowControlled rest

/-- Number of data events delivered before the first stream terminator. -/
def countDataEvents : List H2Event → Nat
  | [] => 0
  | H2Event.dataReceived _ _ _ _ :: rest => 1 + countDataEvents rest
  | H2Event.streamEnded _ :: _ => 0
  | H2Event.streamReset _ :: _ => 0
  | _ :: rest => countDataEvents rest

/-! ### The HTTP/2 flow controlled send path

Transcription of `H2Protocol._send_data`
(`src/bareclient/acgi/h2_protocol.py` lines 191-215).  The body is a byte
list.  `h2_state.local_flow_control_window(stream_id)` is the minimum of
the per stream and per connection outbound credit; `send_data` debits both
windows by the chunk length.  When the computed chunk size is zero the
loop awaits the WindowUpdated signal of the stream; the credit increments
those signals deliver are modelled as a script of
`(stream delta, connection delta)` pairs consumed one per wait.  A wait
with no update left means the send blocks forever, modelled as `none`. -/

/-- One HTTP/2 send loop: returns the DATA frame payloads sent, in order. -/
def _send_data (body : List Nat) (sw cw mf : Nat) (updates : List (Nat × Nat)) :
    Option (List (List Nat)) :=
  if hb : body = [] then some []
  else
    let ws := min sw cw
    let cs := min body.length (min ws mf)
    if hc : cs = 0 then
      match updates with
      | [] => none
      | (ds, dc) :: rest => _send_data body (sw + ds) (cw + dc) mf rest
    else
      (_send_data (body.drop cs) (sw - cs) (cw - cs) mf updates).map
        (fun frames => body.take cs :: frames)
  termination_by (body.length + updates.length, updates.length)
  decreasing_by
    · simp only [Prod.lex_iff]
      left
      simp only [List.length_cons]
      omega
    · simp only [Prod.lex_iff]
      left
      have hlen : 0 < body.length := List.length_pos.mpr hb
      have hcs : 0 < cs := Nat.pos_of_ne_zero hc
      have hle : cs ≤ body.length := Nat.min_le_left _ _
      simp only [List.length_drop]
      omega

/-! ### The proxy CONNECT tunnel -/

/-- The observable steps `Requester.establish_tunnel` performs. -/
inductive TunnelStep where
  | sendMsg (m : HttpMsg)
  | receiveMsg (m : HttpMsg)
  | startTls
  | raiseProxyError (status : Int)
  deriving Repr, DecidableEq

/-- The port computation of `Requester.establish_tunnel`
(`src/bareclient/acgi/requester.py` lines 209-213).  By Python operator
precedence the expression parses as
`(port or 80) if scheme == "http" else 443`. -/
def tunnel_port (scheme : String) (port : Option Nat) : Nat :=
  if scheme = "http" then
    match port with
    | some p => if p ≠ 0 then p else 80
    | none => 80
  else 443

/-- Transcription of `Requester.establish_tunnel`
(`src/bareclient/acgi/requester.py` lines 203-254) over an HTTP/1.1
protocol.  It sends the CONNECT request, performs one `receive()` - which
returns the locally generated `http.response.connection` message the
engine set while sending, without reading the proxy wire - and then starts
TLS.  The proxy wire events (which would carry the CONNECT response
status) are returned unconsumed together with the step list and the
protocol selected from the negotiated ALPN value. -/
def establish_tunnel (hostname scheme : String) (port : Option Nat)
    (proxyWire : List H11Event) (negotiated : Option String) :
    List TunnelStep × String × List H11Event :=
  let p := tunnel_port scheme port
  let connectMsg := HttpMsg.request hostname scheme
    (hostname ++ ":" ++ toString p) "CONNECT" [("host", hostname)] none false
  let steps := [TunnelStep.sendMsg connectMsg,
                TunnelStep.receiveMsg (HttpMsg.responseConnection "h11" none),
                TunnelStep.startTls]
  let proto := if negotiated = some "h2" then "h2" else "h11"
  (steps, proto, proxyWire)

/-! ### The session cookie jar -/

/-- A cookie record.  Python carries cookies as dicts whose fields may be
absent; optional fields model that presence.  `secure` is read with
`cookie.get("secure", False)`. -/
structure Cookie where
  name : String
  value : String
  domain : Option String := none
  path : Option String := none
  expires : Option Int := none
  max_age : Option Int := none
  secure : Bool := false
  creation_time : Int := 0
  persistent : Bool := false
  deriving Repr, DecidableEq

/-- The cache key: `(name, domain, path)` with absent fields defaulted to
the empty byte string. -/
abbrev CookieKey := String × String × String

/-- The cookie cache: a CPython dict, an insertion ordered association
list whose update keeps the position of an existing key. -/
abbrev CookieCache := List (CookieKey × Cookie)

/-- CPython dict update: replace in place when the key exists, append
otherwise. -/
def dictInsert {α β : Type} [DecidableEq α] (k : α) (v : β) :
    List (α × β) → List (α × β)
  | [] => [(k, v)]
  | (k', v') :: rest =>
      if k' = k then (k, v) :: rest else (k', v') :: dictInsert k v rest

/-- CPython dict lookup. -/
def dictLookup {α β : Type} [DecidableEq α] (k : α) :
    List (α × β) → Option β
  | [] => none
  | (k', v') :: rest => if k' = k then some v' else dictLookup k rest

/-- Transcription of `extract_cookies` from
`src/bareclient/middlewares/session.py` (lines 18-52; the copy at
`src/src/bareclient/utils.py` lines 62-97 is identical): drop expired
entries from the cache, then for each header cookie fill `expires` from
`max_age` when needed, skip cookies already expired, stamp
`creation_time` and `persistant`, and store under `(name, domain, path)`
replacing any previous entry. -/
def extract_cookies (cache : CookieCache)
    (header_cookies : List (String × List Cookie)) (now : Int) : CookieCache :=
  let current := cache.filter (fun kc =>
    match kc.2.expires with
    | none => true
    | some e => e > now)
  header_cookies.foldl (fun cur nc =>
    nc.2.foldl (fun cur c =>
      let c :=
        match c.expires, c.max_age with
        | none, some ma => { c with expires := some (now + ma) }
        | _, _ => c
      match c.expires with
      | some e =>
          if e < now then cur
          else
            dictInsert (nc.1, c.domain.getD "", c.path.getD "")
              { c with creation_time := now, persistent := c.expires.isSome } cur
      | none =>
          dictInsert (nc.1, c.domain.getD "", c.path.getD "")
            { c with creation_time := now, persistent := c.expires.isSome } cur)
      cur)
    current

/-- A Python runtime failure. -/
inductive PyError where
  | runtimeError
  deriving Repr, DecidableEq

/-- The expiry test used by `gather_cookies`:
`"expires" in cookie and cookie["expires"] < now`. -/
def cookieExpired (c : Cookie) (now : Int) : Bool :=
  match c.expires with
  | some e => decide (e < now)
  | none => false

/-- Join strings with the separator of a cookie header. -/
def joinSemicolon : List String → String
  | [] => ""
  | [x] => x
  | x :: rest => x ++ "; " ++ joinSemicolon rest

/-- Model of `bareutils.cookies.encode_cookies`: each name maps to a list
of values; the pairs are rendered `name=value` and joined with a
semicolon and space. -/
def encode_cookies (cookies : List (String × List String)) : String :=
  joinSemicolon
    (cookies.map (fun nv => nv.2.map (fun v => nv.1 ++ "=" ++ v))).flatten

/-- The iteration of `gather_cookies` over the cookie cache
(`src/bareclient/middlewares/session.py` lines 74-105).  The loop body
deletes expired entries from the dict it is iterating; CPython dict
iterators compare the size recorded at creation with the current size on
every step, including the final exhaustion step, and raise `RuntimeError`
on a mismatch.  `origSize` is the recorded size, `curSize` the current
size.  The accumulator is the `cookies` dict keyed by name.  The domain
and path preference tests transcribe lines 95 and 98 verbatim: they
compare the candidate cookie with itself. -/
def gather_loop (now : Int) (scheme dom path : String) (origSize : Nat) :
    List (CookieKey × Cookie) → Nat → List (String × Cookie) →
    Except PyError (List (String × Cookie))
  | [], curSize, acc =>
      if origSize ≠ curSize then Except.error PyError.runtimeError
      else Except.ok acc
  | kc :: rest, curSize, acc =>
      if origSize ≠ curSize then Except.error PyError.runtimeError
      else
        let c := kc.2
        if cookieExpired c now then
          gather_loop now scheme dom path origSize rest (curSize - 1) acc
        else if c.secure && scheme ≠ "https" then
          gather_loop now scheme dom path origSize rest curSize acc
        else
          let domain := c.domain.getD ""
          if domain ≠ "" && !(bytes_endswith dom domain) then
            gather_loop now scheme dom path origSize rest curSize acc
          else
            let p := c.path.getD ""
            if p ≠ "" && !(bytes_startswith path p) then
              gather_loop now scheme dom path origSize rest curSize acc
            else
              let acc' :=
                match dictLookup c.name acc with
                | some current =>
                    if domain ≠ "" &&
                        (c.domain.isNone || domain.length < (c.domain.getD "").length) then
                      acc
                    else if p ≠ "" &&
                        (c.path.isNone || p.length < (c.path.getD "").length) then
                      acc
                    else if current.creation_time < c.creation_time then
                      acc
                    else
                      dictInsert c.name c acc
                | none => dictInsert c.name c acc
              gather_loop now scheme dom path origSize rest curSize acc'

/-- Transcription of `gather_cookies` from
`src/bareclient/middlewares/session.py` (lines 55-114): run the cache
iteration and encode the surviving `(name, value)` pairs as a cookie
header (the `last_access_time` stamping mutates the survivors in place
and does not affect the returned bytes). -/
def gather_cookies (cache : CookieCache) (scheme dom path : String)
    (now : Int) : Except PyError String :=
  (gather_loop now scheme dom path cache.length cache cache.length []).map
    (fun survivors =>
      encode_cookies (survivors.map (fun nc => (nc.2.name, [nc.2.value]))))

/-! ### Specification side definitions

These definitions follow the words of the specification, for comparison
with the transcribed code. -/

/-- The expiry a cookie effectively carries after extraction at time
`now`: `expires`, or `now + max_age` when only `max_age` is given. -/
def effective_expires (c : Cookie) (now : Int) : Option Int :=
  match c.expires, c.max_age with
  | none, some ma => some (now + ma)
  | e, _ => e

/-- The specification wording for the HTTP/1.1 `more_body` flag: the
response headers contain a `content-length` header with nonzero value, or
a `transfer-encoding: chunked` header. -/
def spec_h11_more_body (headers : Headers) : Bool :=
  headers.any (fun h =>
    (h.1 = "content-length" && (pyInt? h.2).getD 0 ≠ 0) ||
    (h.1 = "transfer-encoding" && h.2 = "chunked"))

/-! ### The trace predicate of the engine ordering claim -/

/-- Whether a message is an `http.response.connection` message. -/
def isConnMsg : HttpMsg → Bool
  | HttpMsg.responseConnection _ _ => true
  | _ => false

/-- Whether a message is an `http.response` head. -/
def isRespMsg : HttpMsg → Bool
  | HttpMsg.response _ _ _ _ _ => true
  | _ => false

/-- Whether a message is an `http.response.body` frame. -/
def isRespBodyMsg : HttpMsg → Bool
  | HttpMsg.responseBody _ _ _ => true
  | _ => false

/-- The `more_body` flags of the `http.response.body` frames of a trace,
in order. -/
def bodyFlags : List HttpMsg → List Bool
  | [] => []
  | HttpMsg.responseBody _ mb _ :: rest => mb :: bodyFlags rest
  | _ :: rest => bodyFlags rest

/-- Whether, in a flag list, the last flag and only the last flag is
false (vacuously true of the empty list). -/
def lastFlagOnlyFalse : List Bool → Bool
  | [] => true
  | [b] => !b
  | b :: rest => b && lastFlagOnlyFalse rest

/-- Whether the first connection-or-response message of the trace is the
connection message. -/
def connFirst : List HttpMsg → Bool
  | [] => false
  | m :: rest =>
      if isConnMsg m then true
      else if isRespMsg m then false
      else connFirst rest

/-- Whether no `http.response.body` frame precedes the `http.response`
head. -/
def noBodyBeforeResp : List HttpMsg → Bool
  | [] => true
  | m :: rest =>
      if isRespMsg m then true
      else if isRespBodyMsg m then false
      else noBodyBeforeResp rest

/-- The ordering property of claim C1 over an emitted message trace:
exactly one connection message, exactly one response head, the connection
strictly first, no body frame before the head, and the body frame flags
have `more_body` false on the last frame and only there. -/
def c1_ok (msgs : List HttpMsg) : Bool :=
  (msgs.countP (fun m => isConnMsg m) = 1) &&
  (msgs.countP (fun m => isRespMsg m) = 1) &&
  connFirst msgs && noBodyBeforeResp msgs &&
  lastFlagOnlyFalse (bodyFlags msgs)

/-- Decidable equality for results, so that concrete runs can be checked
by evaluation. -/
instance {e a : Type} [DecidableEq e] [DecidableEq a] : DecidableEq (Except e a) := fun
  | Except.error x, Except.error y =>
      if h : x = y then Decidable.isTrue (by rw [h])
      else Decidable.isFalse (by intro hc; cases hc; exact h rfl)
  | Except.error _, Except.ok _ => Decidable.isFalse (by intro hc; cases hc)
  | Except.ok _, Except.error _ => Decidable.isFalse (by intro hc; cases hc)
  | Except.ok x, Except.ok y =>
      if h : x = y then Decidable.isTrue (by rw [h])
      else Decidable.isFalse (by intro hc; cases hc; exact h rfl)

/-! ### Helper lemmas -/

lemma header_find_append_other (n : String) (xs : Headers) (m v : String)
    (h : m ≠ n) : header_find n (xs ++ [(m, v)]) = header_find n xs := by
  induction xs with
  | nil => simp [header_find, h]
  | cons p rest ih =>
      by_cases hp : p.1 = n
      · simp [header_find, hp]
      · simp [header_find, hp, ih]

lemma enrich_headers_append (host : String) (hs : Headers) (b : Bool) :
    _enrich_headers host hs b =
      hs ++
        (if pyTruthy (header_find "user-agent" hs) then []
         else [("user-agent", USER_AGENT)]) ++
        (if pyTruthy (header_find "host" hs) then [] else [("host", host)]) ++
        (if b && !(pyTruthy (header_find "content-length" hs) ||
                   pyTruthy (header_find "transfer-encoding" hs))
         then [("transfer-encoding", "chunked")] else []) := by
  have d1 : ("user-agent" : String) ≠ "host" := by decide
  have d2 : ("user-agent" : String) ≠ "content-length" := by decide
  have d3 : ("user-agent" : String) ≠ "transfer-encoding" := by decide
  have d4 : ("host" : String) ≠ "content-length" := by decide
  have d5 : ("host" : String) ≠ "transfer-encoding" := by decide
  simp only [_enrich_headers]
  cases h1 : pyTruthy (header_find "user-agent" hs)
  · simp only [h1, Bool.false_eq_true, if_false]
    rw [header_find_append_other "host" hs "user-agent" USER_AGENT d1]
    cases h2 : pyTruthy (header_find "host" hs)
    · simp only [h2, Bool.false_eq_true, if_false]
      rw [header_find_append_other "content-length" (hs ++ [("user-agent", USER_AGENT)])
            "host" host d4,
          header_find_append_other "transfer-encoding" (hs ++ [("user-agent", USER_AGENT)])
            "host" host d5,
          header_find_append_other "content-length" hs "user-agent" USER_AGENT d2,
          header_find_append_other "transfer-encoding" hs "user-agent" USER_AGENT d3]
      cases h3 : b && !(pyTruthy (header_find "content-length" hs) ||
          pyTruthy (header_find "transfer-encoding" hs))
      · simp [h3]
      · simp [h3]
    · simp only [h2, if_true]
      rw [header_find_append_other "content-length" hs "user-agent" USER_AGENT d2,
          header_find_append_other "transfer-encoding" hs "user-agent" USER_AGENT d3]
      cases h3 : b && !(pyTruthy (header_find "content-length" hs) ||
          pyTruthy (header_find "transfer-encoding" hs))
      · simp [h3]
      · simp [h3]
  · simp only [h1, if_true]
    cases h2 : pyTruthy (header_find "host" hs)
    · simp only [h2, Bool.false_eq_true, if_false]
      rw [header_find_append_other "content-length" hs "host" host d4,
          header_find_append_other "transfer-encoding" hs "host" host d5]
      cases h3 : b && !(pyTruthy (header_find "content-length" hs) ||
          pyTruthy (header_find "transfer-encoding" hs))
      · simp [h3]
      · simp [h3]
    · simp only [h2, if_true]
      cases h3 : b && !(pyTruthy (header_find "content-length" hs) ||
          pyTruthy (header_find "transfer-encoding" hs))
      · simp [h3]
      · simp [h3]

lemma getLast_getD_cons {α : Type} (l : List α) (a b : α) :
    (a :: l).getLast?.getD b = l.getLast?.getD a := by
  cases l with
  | nil => rfl
  | cons c cs =>
      rw [List.getLast?_cons_cons]
      obtain ⟨x, hx⟩ := Option.isSome_iff_exists.mp
        (List.getLast?_isSome.mpr (List.cons_ne_nil c cs))
      simp [hx]

lemma bodyWriterLoop_eq (cs : List String) : ∀ c, bodyWriterLoop c cs =
    ((c :: cs).dropLast.map (fun d => (some d, true))) ++
      [(some (List.getLastD cs c), false)] := by
  induction cs with
  | nil => intro c; rfl
  | cons d ds ih =>
      intro c
      simp only [bodyWriterLoop, ih d, List.dropLast_cons_of_ne_nil (List.cons_ne_nil d ds),
        List.map_cons, List.cons_append]
      rw [List.getLastD_cons]

lemma lastFlagOnlyFalse_trues {α : Type} (l : List α) :
    lastFlagOnlyFalse (l.map (fun _ => true) ++ [false]) = true := by
  induction l with
  | nil => rfl
  | cons x xs ih =>
      cases xs with
      | nil => rfl
      | cons y ys => simpa [lastFlagOnlyFalse] using ih

lemma h11_scan_eq (hs : Headers) :
    ∀ mb, (∀ p ∈ hs, p.1 = "content-length" → (pyInt? p.2).isSome) →
      h11_more_body_scan hs mb = Except.ok (mb || spec_h11_more_body hs) := by
  induction hs with
  | nil => intro mb _; simp [h11_more_body_scan, spec_h11_more_body]
  | cons h rest ih =>
      intro mb hwf
      have hwfrest : ∀ p ∈ rest, p.1 = "content-length" → (pyInt? p.2).isSome := by
        intro p hp
        exact hwf p (List.mem_cons_of_mem _ hp)
      obtain ⟨n, v⟩ := h
      by_cases hn : n = "content-length"
      · subst hn
        obtain ⟨k, hk⟩ := Option.isSome_iff_exists.mp
          (hwf ("content-length", v) (List.mem_cons_self _ _) rfl)
        by_cases hk0 : k = 0
        · subst hk0
          simp [h11_more_body_scan, hk, ih _ hwfrest, spec_h11_more_body,
            List.any_cons]
        · simp [h11_more_body_scan, hk, ih _ hwfrest, spec_h11_more_body,
            List.any_cons, hk0]
      · by_cases ht : n = "transfer-encoding" ∧ v = "chunked"
        · obtain ⟨ht1, ht2⟩ := ht
          subst ht1; subst ht2
          simp [h11_more_body_scan, ih _ hwfrest, spec_h11_more_body,
            List.any_cons]
        · have hcase : ¬ (n = "transfer-encoding" && v = "chunked") = true := by
            intro hc
            simp only [Bool.and_eq_true, decide_eq_true_eq] at hc
            exact ht hc
          simp only [h11_more_body_scan, if_neg hn, if_neg hcase]
          rw [ih _ hwfrest]
          simp [spec_h11_more_body, List.any_cons, hn, hcase]

lemma h11_body_msgs_eq (datas : List String) :
    h11_body_msgs (datas.map H11Event.data ++ [H11Event.endOfMessage]) =
      Except.ok (datas.map (fun d => HttpMsg.responseBody d true none) ++
        [HttpMsg.responseBody "" false none]) := by
  induction datas with
  | nil => rfl
  | cons d ds ih => simp [h11_body_msgs, ih, Except.map]

lemma c1_ok_shape (v hv : String) (sid sid' : Option Nat) (st : Int)
    (hs : Headers) (mb : Bool) (bodies : List HttpMsg)
    (h1 : bodies.countP (fun m => isConnMsg m) = 0)
    (h2 : bodies.countP (fun m => isRespMsg m) = 0)
    (h3 : lastFlagOnlyFalse (bodyFlags bodies) = true) :
    c1_ok (HttpMsg.responseConnection v sid ::
      HttpMsg.response st hs mb sid' hv :: bodies) = true := by
  rw [List.countP_eq_zero] at h1 h2
  simp [c1_ok, List.countP_cons, isConnMsg, isRespMsg, isRespBodyMsg, connFirst,
    noBodyBeforeResp, bodyFlags, h3]
  refine ⟨fun a ha => ?_, fun a ha => ?_⟩
  · simpa [isConnMsg] using h1 a ha
  · simpa [isRespMsg] using h2 a ha

lemma countP_zero_of_forall (p : HttpMsg → Bool) (B : List HttpMsg)
    (h : ∀ m ∈ B, p m = false) : B.countP (fun m => p m) = 0 := by
  rw [List.countP_eq_zero]
  intro a ha
  simp [h a ha]

lemma bodyFlags_append (xs ys : List HttpMsg) :
    bodyFlags (xs ++ ys) = bodyFlags xs ++ bodyFlags ys := by
  induction xs with
  | nil => rfl
  | cons m rest ih => cases m <;> simp [bodyFlags, ih]

lemma bodyFlags_map_true {α : Type} (l : List α) (g : α → String)
    (sid : Option Nat) :
    bodyFlags (l.map (fun a => HttpMsg.responseBody (g a) true sid)) =
      l.map (fun _ => true) := by
  induction l with
  | nil => rfl
  | cons x xs ih => simp [bodyFlags, ih]

lemma no_conn_in_h1_bodies (datas : List String) :
    ∀ m ∈ (datas.map (fun d => HttpMsg.responseBody d true none) ++
      [HttpMsg.responseBody "" false none]), isConnMsg m = false := by
  intro m hm
  rcases List.mem_append.mp hm with h | h
  · obtain ⟨d, _, hd⟩ := List.mem_map.mp h
    subst hd; rfl
  · simp only [List.mem_singleton] at h
    subst h; rfl

lemma no_resp_in_h1_bodies (datas : List String) :
    ∀ m ∈ (datas.map (fun d => HttpMsg.responseBody d true none) ++
      [HttpMsg.responseBody "" false none]), isRespMsg m = false := by
  intro m hm
  rcases List.mem_append.mp hm with h | h
  · obtain ⟨d, _, hd⟩ := List.mem_map.mp h
    subst hd; rfl
  · simp only [List.mem_singleton] at h
    subst h; rfl

lemma no_conn_in_h2_bodies (mids : List (String × Nat)) (dl : String) (sid : Nat) :
    ∀ m ∈ ((mids.map (fun p => HttpMsg.responseBody p.1 true (some sid))) ++
      [HttpMsg.responseBody dl false (some sid), HttpMsg.disconnect (some sid)]),
      isConnMsg m = false := by
  intro m hm
  rcases List.mem_append.mp hm with h | h
  · obtain ⟨d, _, hd⟩ := List.mem_map.mp h
    subst hd; rfl
  · simp only [List.mem_cons, List.not_mem_nil, or_false] at h
    rcases h with h | h
    · subst h; rfl
    · subst h; rfl

lemma no_resp_in_h2_bodies (mids : List (String × Nat)) (dl : String) (sid : Nat) :
    ∀ m ∈ ((mids.map (fun p => HttpMsg.responseBody p.1 true (some sid))) ++
      [HttpMsg.responseBody dl false (some sid), HttpMsg.disconnect (some sid)]),
      isRespMsg m = false := by
  intro m hm
  rcases List.mem_append.mp hm with h | h
  · obtain ⟨d, _, hd⟩ := List.mem_map.mp h
    subst hd; rfl
  · simp only [List.mem_cons, List.not_mem_nil, or_false] at h
    rcases h with h | h
    · subst h; rfl
    · subst h; rfl

lemma h1_bodies_flags (datas : List String) :
    lastFlagOnlyFalse (bodyFlags
      ((datas.map (fun d => HttpMsg.responseBody d true none)) ++
        [HttpMsg.responseBody "" false none])) = true := by
  rw [bodyFlags_append, bodyFlags_map_true datas (fun d => d) none]
  exact lastFlagOnlyFalse_trues datas

lemma h2_bodies_flags (mids : List (String × Nat)) (dl : String) (sid : Nat) :
    lastFlagOnlyFalse (bodyFlags
      ((mids.map (fun p => HttpMsg.responseBody p.1 true (some sid))) ++
        [HttpMsg.responseBody dl false (some sid),
         HttpMsg.disconnect (some sid)])) = true := by
  rw [bodyFlags_append, bodyFlags_map_true mids (fun p => p.1) (some sid)]
  exact lastFlagOnlyFalse_trues mids

lemma h2_body_loop_shape (mids : List (String × Nat)) (dl : String)
    (fll : Nat) (sid : Nat) : ∀ a,
    h2_body_loop ((mids.map (fun p => H2Event.dataReceived p.1 p.2 false sid)) ++
        [H2Event.dataReceived dl fll true sid, H2Event.streamEnded sid]) a =
      Except.ok ((mids.map (fun p => HttpMsg.responseBody p.1 true (some sid))) ++
        [HttpMsg.responseBody dl false (some sid), HttpMsg.disconnect (some sid)],
        a + (mids.map Prod.snd).sum + fll) := by
  induction mids with
  | nil => intro a; rfl
  | cons p ps ih =>
      intro a
      simp only [List.map_cons, List.cons_append, h2_body_loop, Except.map,
        List.append_eq]
      rw [ih (a + p.2)]
      simp only [List.map_cons, List.sum_cons]
      have hs2 : a + (p.2 + (List.map Prod.snd ps).sum) + fll =
          a + p.2 + (List.map Prod.snd ps).sum + fll := by omega
      rw [hs2]
      rfl

lemma h2_body_loop_acked (wire : List H2Event) :
    ∀ a ms acked, h2_body_loop wire a = Except.ok (ms, acked) →
      acked = a + sumFlowControlled wire ∧
      ms.countP (fun m => isRespBodyMsg m) = countDataEvents wire := by
  induction wire with
  | nil => intro a ms acked h; cases h
  | cons e rest ih =>
      intro a ms acked h
      cases e with
      | dataReceived d fl ended sid =>
          cases hrec : h2_body_loop rest (a + fl) with
          | error err =>
              rw [h2_body_loop, hrec] at h
              cases h
          | ok r =>
              rw [h2_body_loop, hrec] at h
              simp only [Except.map, Except.ok.injEq] at h
              obtain ⟨hms, hacked⟩ := Prod.mk.injEq .. ▸ h
              obtain ⟨ih1, ih2⟩ := ih (a + fl) r.1 r.2 (by rw [hrec])
              constructor
              · rw [← hacked, ih1, sumFlowControlled]
                omega
              · rw [← hms, List.countP_cons, ih2, countDataEvents]
                simp [isRespBodyMsg]
                omega
      | responseReceived rh en si =>
          simp only [h2_body_loop] at h
          obtain ⟨ih1, ih2⟩ := ih a ms acked h
          constructor
          · simp only [sumFlowControlled]
            exact ih1
          · simp only [countDataEvents]
            exact ih2
      | streamEnded sid =>
          rw [h2_body_loop] at h
          simp only [Except.ok.injEq] at h
          obtain ⟨hms, hacked⟩ := Prod.mk.injEq .. ▸ h
          subst hms hacked
          constructor
          · simp [sumFlowControlled]
          · simp [countDataEvents, List.countP_cons, isRespBodyMsg]
      | streamReset sid =>
          rw [h2_body_loop] at h
          simp only [Except.ok.injEq] at h
          obtain ⟨hms, hacked⟩ := Prod.mk.injEq .. ▸ h
          subst hms hacked
          constructor
          · simp [sumFlowControlled]
          · simp [countDataEvents, List.countP_cons, isRespBodyMsg]
      | windowUpdated sid delta =>
          simp only [h2_body_loop] at h
          obtain ⟨ih1, ih2⟩ := ih a ms acked h
          constructor
          · simp only [sumFlowControlled]
            exact ih1
          · simp only [countDataEvents]
            exact ih2
      | other =>
          simp only [h2_body_loop] at h
          obtain ⟨ih1, ih2⟩ := ih a ms acked h
          constructor
          · simp only [sumFlowControlled]
            exact ih1
          · simp only [countDataEvents]
            exact ih2

lemma send_data_spec (n : Nat) :
    ∀ (body : List Nat) (sw cw mf : Nat) (updates : List (Nat × Nat))
      (frames : List (List Nat)),
      body.length + updates.length ≤ n →
      _send_data body sw cw mf updates = some frames →
      frames.flatten = body ∧
      (∀ f ∈ frames, f ≠ [] ∧ f.length ≤ mf) ∧
      (frames.map List.length).sum ≤ sw + (updates.map Prod.fst).sum ∧
      (frames.map List.length).sum ≤ cw + (updates.map Prod.snd).sum := by
  induction n with
  | zero =>
      intro body sw cw mf updates frames hn h
      have hb : body = [] := by
        cases body with
        | nil => rfl
        | cons x xs => simp at hn
      subst hb
      rw [_send_data.eq_def] at h
      simp at h
      subst h
      simp
  | succ n ih =>
      intro body sw cw mf updates frames hn h
      by_cases hb : body = []
      · subst hb
        rw [_send_data.eq_def] at h
        simp at h
        subst h
        simp
      · rw [_send_data.eq_def, dif_neg hb] at h
        by_cases hc : min body.length (min (min sw cw) mf) = 0
        · rw [dif_pos hc] at h
          cases updates with
          | nil => cases h
          | cons u rest =>
              obtain ⟨ds, dc⟩ := u
              have hrec := ih body (sw + ds) (cw + dc) mf rest frames
                (by simp only [List.length_cons] at hn; omega) h
              obtain ⟨h1, h2, h3, h4⟩ := hrec
              refine ⟨h1, h2, ?_, ?_⟩
              · simp only [List.map_cons, List.sum_cons]
                omega
              · simp only [List.map_cons, List.sum_cons]
                omega
        · rw [dif_neg hc] at h
          cases hrec : _send_data (body.drop (min body.length (min (min sw cw) mf)))
              (sw - min body.length (min (min sw cw) mf))
              (cw - min body.length (min (min sw cw) mf)) mf updates with
          | none => rw [hrec] at h; cases h
          | some fr =>
              rw [hrec] at h
              simp only [Option.map] at h
              rw [Option.some.injEq] at h
              have hframes : frames =
                  body.take (min body.length (min (min sw cw) mf)) :: fr := h.symm
              have hlen : 0 < body.length := List.length_pos.mpr hb
              have hcpos : 0 < min body.length (min (min sw cw) mf) :=
                Nat.pos_of_ne_zero hc
              have hcle : min body.length (min (min sw cw) mf) ≤ body.length :=
                Nat.min_le_left _ _
              have hcsw : min body.length (min (min sw cw) mf) ≤ sw := by
                have e1 : min body.length (min (min sw cw) mf) ≤ min (min sw cw) mf :=
                  Nat.min_le_right _ _
                have e2 : min (min sw cw) mf ≤ min sw cw := Nat.min_le_left _ _
                have e3 : min sw cw ≤ sw := Nat.min_le_left _ _
                omega
              have hccw : min body.length (min (min sw cw) mf) ≤ cw := by
                have e1 : min body.length (min (min sw cw) mf) ≤ min (min sw cw) mf :=
                  Nat.min_le_right _ _
                have e2 : min (min sw cw) mf ≤ min sw cw := Nat.min_le_left _ _
                have e3 : min sw cw ≤ cw := Nat.min_le_right _ _
                omega
              have hcmf : min body.length (min (min sw cw) mf) ≤ mf := by
                have e1 : min body.length (min (min sw cw) mf) ≤ min (min sw cw) mf :=
                  Nat.min_le_right _ _
                have e2 : min (min sw cw) mf ≤ mf := Nat.min_le_right _ _
                omega
              have hdroplen : (body.drop (min body.length (min (min sw cw) mf))).length +
                  updates.length ≤ n := by
                simp only [List.length_drop]
                omega
              obtain ⟨h1, h2, h3, h4⟩ := ih _ _ _ _ _ _ hdroplen hrec
              have htakelen : (body.take (min body.length (min (min sw cw) mf))).length =
                  min body.length (min (min sw cw) mf) := by
                simp only [List.length_take]
                omega
              subst hframes
              refine ⟨?_, ?_, ?_, ?_⟩
              · simp only [List.flatten_cons, h1, List.take_append_drop]
              · intro f hf
                rcases List.mem_cons.mp hf with hf | hf
                · subst hf
                  constructor
                  · intro hnil
                    rw [← List.length_eq_zero] at hnil
                    omega
                  · omega
                · exact h2 f hf
              · simp only [List.map_cons, List.sum_cons, htakelen]
                omega
              · simp only [List.map_cons, List.sum_cons, htakelen]
                omega

lemma bytes_endswith_empty (s : String) : bytes_endswith s "" = true := by
  have h0 : ("" : String).toList = [] := rfl
  simp only [bytes_endswith, h0, List.reverse_nil]
  cases s.toList.reverse <;> rfl

lemma bytes_startswith_empty (s : String) : bytes_startswith s "" = true := by
  simp only [bytes_startswith]
  cases s.toList <;> rfl

/-- The cookie record as stored by extract: `expires` filled from
`max_age` when needed, `creation_time` stamped, `persistant` set. -/
def stored_cookie (c : Cookie) (now : Int) : Cookie :=
  { c with expires := effective_expires c now, creation_time := now,
           persistent := (effective_expires c now).isSome }

lemma extract_single (name : String) (c : Cookie) (tE : Int)
    (hfresh : ∀ e, effective_expires c tE = some e → tE ≤ e) :
    extract_cookies [] [(name, [c])] tE =
      [((name, c.domain.getD "", c.path.getD ""), stored_cookie c tE)] := by
  simp only [extract_cookies, List.filter, List.foldl, stored_cookie,
    effective_expires]
  rcases hce : c.expires with _ | e
  · rcases hma : c.max_age with _ | ma
    · simp [hce, hma, dictInsert]
    · have h := hfresh (tE + ma) (by simp [effective_expires, hce, hma])
      simp only [hce, hma]
      rw [if_neg (by omega)]
      simp [dictInsert]
  · have h := hfresh e (by simp [effective_expires, hce])
    rcases hma : c.max_age with _ | ma
    · simp only [hce, hma]
      rw [if_neg (by omega)]
      simp [dictInsert, hce]
    · simp only [hce, hma]
      rw [if_neg (by omega)]
      simp [dictInsert, hce]

lemma include_cond_eq (sec : Bool) (scheme dom domain path p : String) :
    ((!sec || scheme = "https") && bytes_endswith dom domain &&
      bytes_startswith path p) =
    (!(sec && scheme ≠ "https") && !(domain ≠ "" && !bytes_endswith dom domain) &&
      !(p ≠ "" && !bytes_startswith path p)) := by
  cases sec <;> by_cases h1 : scheme = "https" <;> by_cases h2 : domain = "" <;>
    cases h3 : bytes_endswith dom domain <;> by_cases h4 : p = "" <;>
      cases h5 : bytes_startswith path p <;>
        simp_all [bytes_endswith_empty, bytes_startswith_empty]

lemma gather_single (key : CookieKey) (c : Cookie) (scheme dom path : String)
    (tG : Int) (hexp : cookieExpired c tG = false) :
    gather_cookies [(key, c)] scheme dom path tG =
      Except.ok (if (!c.secure || scheme = "https") &&
          bytes_endswith dom (c.domain.getD "") &&
          bytes_startswith path (c.path.getD "")
        then c.name ++ "=" ++ c.value else "") := by
  rw [include_cond_eq]
  simp only [gather_cookies, gather_loop, List.length_cons, List.length_nil,
    hexp, Bool.false_eq_true, if_false, ne_eq, not_true_eq_false]
  by_cases s1 : c.secure = true ∧ ¬scheme = "https"
  · obtain ⟨ha, hb⟩ := s1
    simp [gather_loop, ha, hb, encode_cookies, joinSemicolon, Except.map,
      Function.comp_def]
  · by_cases s2 : ¬c.domain.getD "" = "" ∧
        bytes_endswith dom (c.domain.getD "") = false
    · obtain ⟨ha, hb⟩ := s2
      simp [gather_loop, s1, ha, hb, encode_cookies, joinSemicolon, Except.map,
        Function.comp_def]
    · by_cases s3 : ¬c.path.getD "" = "" ∧
          bytes_startswith path (c.path.getD "") = false
      · obtain ⟨ha, hb⟩ := s3
        simp [gather_loop, s1, s2, ha, hb, encode_cookies, joinSemicolon,
          Except.map, Function.comp_def]
      · have hcond : ((c.secure = false ∨ scheme = "https") ∧
            (c.domain.getD "" = "" ∨ bytes_endswith dom (c.domain.getD "") = true)) ∧
            (c.path.getD "" = "" ∨ bytes_startswith path (c.path.getD "") = true) := by
          push_neg at s1 s2 s3
          refine ⟨⟨?_, ?_⟩, ?_⟩
          · cases hsec : c.secure
            · exact Or.inl rfl
            · exact Or.inr (s1 hsec)
          · by_cases hd : c.domain.getD "" = ""
            · exact Or.inl hd
            · exact Or.inr (by simpa using s2 hd)
          · by_cases hp : c.path.getD "" = ""
            · exact Or.inl hp
            · exact Or.inr (by simpa using s3 hp)
        simp [gather_loop, s1, s2, s3, hcond, dictLookup, dictInsert,
          encode_cookies, joinSemicolon, Except.map, Function.comp_def]

lemma gather_loop_error (now : Int) (scheme dom path : String) (origSize : Nat)
    (hpos : 0 < origSize) :
    ∀ (items : List (CookieKey × Cookie)) (acc : List (String × Cookie)),
      (∃ kc ∈ items, cookieExpired kc.2 now = true) →
      gather_loop now scheme dom path origSize items origSize acc =
        Except.error PyError.runtimeError := by
  intro items
  induction items with
  | nil =>
      intro acc hex
      obtain ⟨kc, hmem, _⟩ := hex
      cases hmem
  | cons kc rest ih =>
      intro acc hex
      by_cases hexphead : cookieExpired kc.2 now = true
      · rw [gather_loop, if_neg (by omega)]
        simp only [hexphead, if_true]
        cases rest with
        | nil => rw [gather_loop, if_pos (by omega)]
        | cons kc2 rest2 => rw [gather_loop, if_pos (by omega)]
      · obtain ⟨kc', hmem, hexp⟩ := hex
        rcases List.mem_cons.mp hmem with heq | hmem'
        · subst heq
          exact absurd hexp hexphead
        · rw [gather_loop, if_neg (by omega)]
          simp only [hexphead, Bool.false_eq_true, if_false]
          split_ifs <;> exact ih _ ⟨kc', hmem', hexp⟩

/-! ### The claims -/

/-- Claim C1: for every successful request processed through the protocol
facade, the engine emits exactly one `ResponseConnection` message, strictly
before exactly one `Response` message, followed by zero or more
`ResponseBody` messages of which the last and only the last has
`more_body == false`.  The first conjunct covers the HTTP/1.1 engine on a
successful wire exchange (response head, data, end of message); the second
and third cover the HTTP/2 engine on a stream carrying data frames and on
a stream whose response head already ends the stream. -/
theorem claim_C1_engine_message_ordering :
    (∀ (st : Int) (hs : Headers) (mb : Bool) (datas : List String),
      h11_compute_more_body hs = Except.ok mb →
      ∃ t, h11_drive (H11Event.response st hs ::
          (datas.map H11Event.data ++ [H11Event.endOfMessage])) = Except.ok t ∧
        c1_ok t = true) ∧
    (∀ (rhs : Headers) (st : Int) (hs : Headers) (sid : Nat)
        (mids : List (String × Nat)) (dl : String) (fll : Nat),
      h2_build_response rhs (200, []) = Except.ok (st, hs) →
      ∃ t a, h2_drive (H2Event.responseReceived rhs false sid ::
          ((mids.map (fun p => H2Event.dataReceived p.1 p.2 false sid)) ++
            [H2Event.dataReceived dl fll true sid, H2Event.streamEnded sid])) =
          Except.ok (t, a) ∧ c1_ok t = true) ∧
    (∀ (rhs : Headers) (st : Int) (hs : Headers) (sid : Nat),
      h2_build_response rhs (200, []) = Except.ok (st, hs) →
      ∃ t a, h2_drive [H2Event.responseReceived rhs true sid,
          H2Event.streamEnded sid] = Except.ok (t, a) ∧ c1_ok t = true) := by
  refine ⟨?_, ?_, ?_⟩
  · intro st hs mb datas hmb
    cases mb with
    | true =>
        refine ⟨HttpMsg.responseConnection "h11" none ::
          HttpMsg.response st hs true none "1.1" ::
          ((datas.map (fun d => HttpMsg.responseBody d true none)) ++
            [HttpMsg.responseBody "" false none]), ?_, ?_⟩
        · simp [h11_drive, hmb, h11_body_msgs_eq datas, Except.map]
        · exact c1_ok_shape _ _ _ _ _ _ _ _
            (countP_zero_of_forall _ _ (no_conn_in_h1_bodies datas))
            (countP_zero_of_forall _ _ (no_resp_in_h1_bodies datas))
            (h1_bodies_flags datas)
    | false =>
        refine ⟨[HttpMsg.responseConnection "h11" none,
          HttpMsg.response st hs false none "1.1"], ?_, ?_⟩
        · simp [h11_drive, hmb]
        · exact c1_ok_shape _ _ _ _ _ _ _ _ rfl rfl rfl
  · intro rhs st hs sid mids dl fll hb
    refine ⟨HttpMsg.responseConnection "h2" (some sid) ::
      HttpMsg.response st hs true (some sid) "2" ::
      ((mids.map (fun p => HttpMsg.responseBody p.1 true (some sid))) ++
        [HttpMsg.responseBody dl false (some sid),
         HttpMsg.disconnect (some sid)]),
      (mids.map Prod.snd).sum + fll, ?_, ?_⟩
    · simp [h2_drive, hb, h2_body_loop_shape mids dl fll sid 0, Except.map]
    · exact c1_ok_shape _ _ _ _ _ _ _ _
        (countP_zero_of_forall _ _ (no_conn_in_h2_bodies mids dl sid))
        (countP_zero_of_forall _ _ (no_resp_in_h2_bodies mids dl sid))
        (h2_bodies_flags mids dl sid)
  · intro rhs st hs sid hb
    refine ⟨[HttpMsg.responseConnection "h2" (some sid),
      HttpMsg.response st hs false (some sid) "2",
      HttpMsg.disconnect (some sid)], 0, ?_, ?_⟩
    · simp [h2_drive, hb, h2_body_loop, Except.map]
    · exact c1_ok_shape _ _ _ _ _ _ _ _ rfl rfl rfl

/-- Witness for claim C1 at concrete inputs: an HTTP/1.1 exchange with a
`content-length: 5` response carrying one data chunk, an HTTP/2 stream
delivering one data frame, and an HTTP/2 stream ended by its head. -/
theorem claim_C1_witness :
    h11_compute_more_body [("content-length", "5")] = Except.ok true ∧
    h2_build_response [(":status", "200"), ("content-type", "text/plain")]
      (200, []) = Except.ok (200, [("content-type", "text/plain")]) ∧
    h2_build_response [(":status", "204")] (200, []) = Except.ok (204, []) ∧
    (∃ t, h11_drive (H11Event.response 200 [("content-length", "5")] ::
        (["hello"].map H11Event.data ++ [H11Event.endOfMessage])) =
        Except.ok t ∧ c1_ok t = true) ∧
    (∃ t a, h2_drive (H2Event.responseReceived
        [(":status", "200"), ("content-type", "text/plain")] false 1 ::
        ((([] : List (String × Nat)).map
            (fun p => H2Event.dataReceived p.1 p.2 false 1)) ++
          [H2Event.dataReceived "hello" 5 true 1, H2Event.streamEnded 1])) =
        Except.ok (t, a) ∧ c1_ok t = true) ∧
    (∃ t a, h2_drive [H2Event.responseReceived [(":status", "204")] true 3,
        H2Event.streamEnded 3] = Except.ok (t, a) ∧ c1_ok t = true) :=
  ⟨rfl, rfl, rfl,
    claim_C1_engine_message_ordering.1 200 [("content-length", "5")] true
      ["hello"] rfl,
    claim_C1_engine_message_ordering.2.1
      [(":status", "200"), ("content-type", "text/plain")] 200
      [("content-type", "text/plain")] 1 [] "hello" 5 rfl,
    claim_C1_engine_message_ordering.2.2 [(":status", "204")] 204 [] 3 rfl⟩

/-- Claim C2: a body of `N >= 1` chunks produces exactly `N`
`(chunk, more_body)` pairs in order with `more_body` false exactly on the
last; the first pair travels in the `http.request` message and each later
pair in an `http.request.body` message carrying the stream id; an absent
body produces exactly one `(null, false)` pair and no `http.request.body`
message. -/
theorem claim_C2_body_writer_pairs :
    (∀ (c : String) (cs : List String) (host scheme path method : String)
        (hs : Headers) (sid : Option Nat),
      _make_body_writer (some (c :: cs)) =
        ((c :: cs).dropLast.map (fun d => (some d, true))) ++
          [(some (List.getLastD cs c), false)] ∧
      _process_request_msgs host scheme path method hs (some (c :: cs)) sid =
        HttpMsg.request host scheme path method (_enrich_headers host hs true)
            (some c) (!cs.isEmpty) ::
          (cs.dropLast.map (fun d => HttpMsg.requestBody d true sid)) ++
          (if cs.isEmpty then []
           else [HttpMsg.requestBody (List.getLastD cs "") false sid])) ∧
    (∀ (host scheme path method : String) (hs : Headers) (sid : Option Nat),
      _process_request_msgs host scheme path method hs none sid =
        [HttpMsg.request host scheme path method (_enrich_headers host hs false)
          none false]) := by
  constructor
  · intro c cs host scheme path method hs sid
    constructor
    · simpa [_make_body_writer] using bodyWriterLoop_eq cs c
    · cases cs with
      | nil => rfl
      | cons d ds =>
          simp only [_process_request_msgs, _make_body_writer, Option.isSome,
            bodyWriterLoop, bodyWriterLoop_eq ds d]
          cases ds with
          | nil => simp
          | cons e es =>
              simp [Function.comp_def, List.getLastD_eq_getLast?,
                getLast_getD_cons]
  · intro host scheme path method hs sid
    rfl

/-- Claim C3: the flow controlled HTTP/2 send path frames the body into
nonempty chunks bounded by `max_outbound_frame_size`, delivers every byte
exactly once, and never sends more bytes than the initial credit plus the
credit granted by window updates, on both the stream and the connection
window; and the receive loop acknowledges back exactly the sum of the
flow controlled lengths of the delivered data frames. -/
theorem claim_C3_flow_control :
    (∀ (body : List Nat) (sw cw mf : Nat) (updates : List (Nat × Nat))
        (frames : List (List Nat)),
      _send_data body sw cw mf updates = some frames →
      frames.flatten = body ∧
      (∀ f ∈ frames, f ≠ [] ∧ f.length ≤ mf) ∧
      (frames.map List.length).sum ≤ sw + (updates.map Prod.fst).sum ∧
      (frames.map List.length).sum ≤ cw + (updates.map Prod.snd).sum) ∧
    (∀ (wire : List H2Event) (a : Nat) (ms : List HttpMsg) (acked : Nat),
      h2_body_loop wire a = Except.ok (ms, acked) →
      acked = a + sumFlowControlled wire ∧
      ms.countP (fun m => isRespBodyMsg m) = countDataEvents wire) := by
  constructor
  · intro body sw cw mf updates frames h
    exact send_data_spec (body.length + updates.length) body sw cw mf updates
      frames (le_refl _) h
  · intro wire a ms acked h
    exact h2_body_loop_acked wire a ms acked h

/-- Witness for claim C3: a send of five bytes against a stream window of
two, a connection window of ten and a frame limit of two, unblocked by one
window update; and a receive loop delivering one data frame of flow
controlled length two. -/
theorem claim_C3_witness :
    _send_data [1, 2, 3, 4, 5] 2 10 2 [(3, 3)] =
      some [[1, 2], [3, 4], [5]] ∧
    ([[1, 2], [3, 4], [5]] : List (List Nat)).flatten = [1, 2, 3, 4, 5] ∧
    (∀ f ∈ ([[1, 2], [3, 4], [5]] : List (List Nat)), f ≠ [] ∧ f.length ≤ 2) ∧
    (([[1, 2], [3, 4], [5]] : List (List Nat)).map List.length).sum ≤
      2 + (([(3, 3)] : List (Nat × Nat)).map Prod.fst).sum ∧
    h2_body_loop [H2Event.dataReceived "ab" 2 false 7, H2Event.streamEnded 7]
      0 = Except.ok ([HttpMsg.responseBody "ab" true (some 7),
        HttpMsg.disconnect (some 7)], 2) ∧
    (2 : Nat) = 0 + sumFlowControlled
      [H2Event.dataReceived "ab" 2 false 7, H2Event.streamEnded 7] := by
  have hsend : _send_data [1, 2, 3, 4, 5] 2 10 2 [(3, 3)] =
      some [[1, 2], [3, 4], [5]] := by
    simp +decide [_send_data.eq_def]
  refine ⟨hsend, ?_, ?_, ?_, by rfl, ?_⟩
  · exact (claim_C3_flow_control.1 [1, 2, 3, 4, 5] 2 10 2 [(3, 3)]
      [[1, 2], [3, 4], [5]] hsend).1
  · exact (claim_C3_flow_control.1 [1, 2, 3, 4, 5] 2 10 2 [(3, 3)]
      [[1, 2], [3, 4], [5]] hsend).2.1
  · exact (claim_C3_flow_control.1 [1, 2, 3, 4, 5] 2 10 2 [(3, 3)]
      [[1, 2], [3, 4], [5]] hsend).2.2.1
  · exact (claim_C3_flow_control.2
      [H2Event.dataReceived "ab" 2 false 7, H2Event.streamEnded 7] 0
      [HttpMsg.responseBody "ab" true (some 7), HttpMsg.disconnect (some 7)]
      2 (by rfl)).1

/-- Claim C4 (refuted by the code): the tunnel procedure never awaits the
proxy response and never checks its status.  The step trace of
`establish_tunnel` is the same whatever the proxy sends back, the TLS
handshake step is always performed, no `ProxyError` step exists, the only
message ever received is the locally generated `http.response.connection`,
and the proxy wire - which would carry a `407` status - is returned
unconsumed. -/
theorem claim_C4_tunnel_ignores_status :
    ∀ (hostname scheme : String) (port : Option Nat)
      (negotiated : Option String) (wire wire2 : List H11Event),
      (establish_tunnel hostname scheme port wire negotiated).1 =
        (establish_tunnel hostname scheme port wire2 negotiated).1 ∧
      (establish_tunnel hostname scheme port wire negotiated).1 =
        [TunnelStep.sendMsg (HttpMsg.request hostname scheme
            (hostname ++ ":" ++ toString (tunnel_port scheme port)) "CONNECT"
            [("host", hostname)] none false),
         TunnelStep.receiveMsg (HttpMsg.responseConnection "h11" none),
         TunnelStep.startTls] ∧
      TunnelStep.startTls ∈ (establish_tunnel hostname scheme port wire negotiated).1 ∧
      ((establish_tunnel hostname scheme port wire negotiated).1.countP
        (fun s => match s with
          | TunnelStep.raiseProxyError _ => true
          | _ => false)) = 0 ∧
      (establish_tunnel hostname scheme port wire negotiated).2.2 = wire := by
  intro hostname scheme port negotiated wire wire2
  refine ⟨rfl, rfl, ?_, rfl, rfl⟩
  simp [establish_tunnel]

/-- Claim C5: after `extract` stores one cookie, a subsequent `gather`
returns its `(name, value)` pair in the produced cookie header exactly when
the request scheme is `https` (required only when the cookie is marked
secure), the request domain ends with the cookie domain, and the request
path starts with the cookie path; a request failing any of those
conditions does not receive the cookie.  The hypothesis states that the
cookie is not expired at either time. -/
theorem claim_C5_cookie_round_trip (c : Cookie) (tE tG : Int)
    (scheme dom path : String)
    (hfresh : ∀ e, effective_expires c tE = some e → tE ≤ e ∧ tG ≤ e) :
    gather_cookies (extract_cookies [] [(c.name, [c])] tE) scheme dom path tG =
      Except.ok (if (!c.secure || scheme = "https") &&
          bytes_endswith dom (c.domain.getD "") &&
          bytes_startswith path (c.path.getD "")
        then c.name ++ "=" ++ c.value else "") := by
  rw [extract_single c.name c tE (fun e he => (hfresh e he).1)]
  have hexp : cookieExpired (stored_cookie c tE) tG = false := by
    simp only [cookieExpired, stored_cookie]
    rcases he : effective_expires c tE with _ | e
    · rfl
    · have h2 := (hfresh e he).2
      simp only [decide_eq_false_iff_not]
      omega
  rw [gather_single _ _ _ _ _ _ hexp]
  simp [stored_cookie]

/-- The cookie of the witness of claim C5: a secure cookie scoped to
domain `example.com` and path `/`. -/
def c5_witness_cookie : Cookie :=
  { name := "sid", value := "abc", domain := some "example.com",
    path := some "/", secure := true }

/-- Witness for claim C5: the cookie is returned to a matching https
request. -/
theorem claim_C5_witness :
    (∀ e, effective_expires c5_witness_cookie 100 = some e →
      (100 : Int) ≤ e ∧ (200 : Int) ≤ e) ∧
    gather_cookies (extract_cookies [] [("sid", [c5_witness_cookie])] 100)
      "https" "example.com" "/x" 200 = Except.ok "sid=abc" := by
  constructor
  · intro e he
    cases he
  · have h := claim_C5_cookie_round_trip c5_witness_cookie 100 200
      "https" "example.com" "/x" (fun e he => by cases he)
    exact h.trans (by decide)

/-- The two same-name cookies of the claim C6 failing input: cookie A has
the longer domain, both have equal creation times. -/
def c6_cookie_A : Cookie :=
  { name := "one", value := "1", domain := some "www.example.com" }

/-- The second cookie of the claim C6 failing input, with a shorter
domain. -/
def c6_cookie_B : Cookie :=
  { name := "one", value := "2", domain := some "example.com" }

/-- The claim C6 failing cache, in extraction order: A first, B second. -/
def c6_cache : CookieCache :=
  [(("one", "www.example.com", ""), c6_cookie_A),
   (("one", "example.com", ""), c6_cookie_B)]

/-- Claim C6 (refuted by the code): with two applicable non-expired
same-name cookies of equal creation time, the one with the longer domain
should win, but `gather_cookies` returns the later-iterated cookie B with
the shorter domain: the domain and path preference tests of the source
compare the candidate cookie with itself and never fire. -/
theorem claim_C6_preference_bug :
    c6_cookie_A.name = c6_cookie_B.name ∧
    c6_cookie_A.creation_time = c6_cookie_B.creation_time ∧
    (c6_cookie_B.domain.getD "").length < (c6_cookie_A.domain.getD "").length ∧
    bytes_endswith "www.example.com" (c6_cookie_A.domain.getD "") = true ∧
    bytes_endswith "www.example.com" (c6_cookie_B.domain.getD "") = true ∧
    cookieExpired c6_cookie_A 100 = false ∧
    cookieExpired c6_cookie_B 100 = false ∧
    gather_cookies c6_cache "https" "www.example.com" "/" 100 =
      Except.ok ("one=" ++ c6_cookie_B.value) ∧
    Except.ok ("one=" ++ c6_cookie_B.value) ≠
      (Except.ok ("one=" ++ c6_cookie_A.value) : Except PyError String) := by
  decide

/-- Claim C7: the HTTP/1.1 engine reports `more_body` true exactly when
the response headers contain a `content-length` header with nonzero value
or a `transfer-encoding: chunked` header (for headers whose
`content-length` values parse as integers); in particular a 204 response
carrying neither yields a `Response` with status 204 and an absent
body. -/
theorem claim_C7_h1_more_body :
    (∀ hs : Headers, (∀ p ∈ hs, p.1 = "content-length" → (pyInt? p.2).isSome) →
      h11_compute_more_body hs = Except.ok (spec_h11_more_body hs)) ∧
    h11_drive [H11Event.response 204 [("connection", "close")]] =
      Except.ok [HttpMsg.responseConnection "h11" none,
                 HttpMsg.response 204 [("connection", "close")] false none "1.1"] ∧
    _process_response "http://example.test/a"
      [HttpMsg.response 204 [("connection", "close")] false none "1.1"] =
      Except.ok (ResponseRec.mk "http://example.test/a" 204
        [("connection", "close")] none) := by
  refine ⟨?_, rfl, rfl⟩
  intro hs hwf
  exact h11_scan_eq hs false hwf

/-- Witness for claim C7 at a header list with a nonzero
`content-length`. -/
theorem claim_C7_witness :
    (∀ p ∈ ([("content-length", "5"), ("x", "y")] : Headers),
      p.1 = "content-length" → (pyInt? p.2).isSome) ∧
    h11_compute_more_body [("content-length", "5"), ("x", "y")] =
      Except.ok (spec_h11_more_body [("content-length", "5"), ("x", "y")]) :=
  ⟨by decide, claim_C7_h1_more_body.1 [("content-length", "5"), ("x", "y")]
    (by decide)⟩

/-- Claim C8 (amended): header enrichment appends `user-agent`, then
`host`, then `transfer-encoding: chunked` to the end of the headers, each
only when `header.find` returns nothing truthy for that name - a header
that is present with an empty value counts as absent - and
`transfer-encoding` only when a body is present and neither
`content-length` nor `transfer-encoding` carries a non-empty value; all
pre-existing headers are left unchanged in their original order, and the
number of `transfer-encoding` headers grows by exactly the chunked-header
condition. -/
theorem claim_C8_enrichment :
    ∀ (host : String) (hs : Headers) (b : Bool),
      _enrich_headers host hs b =
        hs ++
          (if pyTruthy (header_find "user-agent" hs) then []
           else [("user-agent", USER_AGENT)]) ++
          (if pyTruthy (header_find "host" hs) then [] else [("host", host)]) ++
          (if b && !(pyTruthy (header_find "content-length" hs) ||
                     pyTruthy (header_find "transfer-encoding" hs))
           then [("transfer-encoding", "chunked")] else []) ∧
      countName "transfer-encoding" (_enrich_headers host hs b) =
        countName "transfer-encoding" hs +
          (if b && !(pyTruthy (header_find "content-length" hs) ||
                     pyTruthy (header_find "transfer-encoding" hs))
           then 1 else 0) := by
  intro host hs b
  refine ⟨enrich_headers_append host hs b, ?_⟩
  rw [enrich_headers_append host hs b]
  cases h1 : pyTruthy (header_find "user-agent" hs) <;>
    cases h2 : pyTruthy (header_find "host" hs) <;>
      cases h3 : b && !(pyTruthy (header_find "content-length" hs) ||
          pyTruthy (header_find "transfer-encoding" hs)) <;>
        simp +decide [h1, h2, h3, countName, List.countP_append,
          List.countP_cons]

/-- Counterexample to claim C8 as stated: a request already carrying a
`user-agent` header (with an empty value) still receives an appended
`user-agent` header, so the enriched request holds two of them. -/
theorem claim_C8_counterexample :
    headerPresent "user-agent" [("user-agent", "")] = true ∧
    countName "user-agent"
      (_enrich_headers "example.test" [("user-agent", "")] false) = 2 := by
  decide

/-- Claim C9 (amended): the basic authorization middleware appends the
`authorization: Basic <base64(username:password)>` header to the end of
the request headers unconditionally, with no presence check. -/
theorem claim_C9_append :
    ∀ (username password : String) (hs : Headers),
      basic_auth_middleware username password hs =
        hs ++ [("authorization",
          "Basic " ++ b64encode (username ++ ":" ++ password))] := by
  intro username password hs
  rfl

/-- Counterexample to claim C9 as stated: a request already carrying an
`authorization` header is not forwarded unchanged - a second
`authorization` header is appended after it. -/
theorem claim_C9_counterexample :
    headerPresent "authorization" [("authorization", "Bearer x")] = true ∧
    basic_auth_middleware "u" "p" [("authorization", "Bearer x")] ≠
      [("authorization", "Bearer x")] ∧
    basic_auth_middleware "u" "p" [("authorization", "Bearer x")] =
      [("authorization", "Bearer x"), ("authorization", "Basic dTpw")] := by
  decide

/-- Claim C10: whenever the cookie cache holds an entry whose expiry lies
before now, `gather_cookies` returns no cookie header at all: the
deletion of the expired entry during the iteration over the same dict
makes the iteration abort with a `RuntimeError` on its next step. -/
theorem claim_C10_expired_runtime_error (cache : CookieCache)
    (scheme dom path : String) (now : Int)
    (h : ∃ kc ∈ cache, cookieExpired kc.2 now = true) :
    gather_cookies cache scheme dom path now =
      Except.error PyError.runtimeError := by
  have hne : cache ≠ [] := by
    rintro rfl
    obtain ⟨kc, hmem, _⟩ := h
    cases hmem
  have hpos : 0 < cache.length := List.length_pos.mpr hne
  simp only [gather_cookies]
  rw [gather_loop_error now scheme dom path cache.length hpos cache [] h]
  rfl

/-- The cache of the witness of claim C10: one cookie expired at time
50. -/
def c10_cache : CookieCache :=
  [(("a", "", ""), { name := "a", value := "1", expires := some 50 })]

/-- Witness for claim C10: gathering at time 100 from a cache holding a
cookie expired at time 50 raises. -/
theorem claim_C10_witness :
    (∃ kc ∈ c10_cache, cookieExpired kc.2 100 = true) ∧
    gather_cookies c10_cache "https" "example.com" "/" 100 =
      Except.error PyError.runtimeError :=
  ⟨by decide, claim_C10_expired_runtime_error c10_cache "https" "example.com"
    "/" 100 (by decide)⟩

end BareClient
